import Mathlib

/-!
Shallow embedding of the wikimon evolution scraper
(`src/wikimonscrape/scrape/process.py` and `src/wikimonscrape/digidb.py`).

The SQLite store is modelled as in-memory lists of rows (row order models
rowid/insertion order, which is the order `fetchone` scans without an
`ORDER BY`).  SQL `NULL` columns are modelled with `Option`.  The external
collaborators (the HTTP fetcher `requests.get`, the HTML parser
`BeautifulSoup`/selectors, and `urllib.parse.quote`) are modelled as a
`World` of abstract functions; fetches over the network are recorded in an
explicit log so that fetch-counting properties can be stated.  Python
exceptions are modelled with `Except PyErr`.
-/

namespace Wikimon

/-- Scan for an occurrence of `pat` at any position of the character
list. -/
def subOcc (pat : List Char) : List Char → Bool
  | [] => pat.isEmpty
  | c :: rest => pat.isPrefixOf (c :: rest) || subOcc pat rest

/-- Python's substring test `pat in s`. -/
def strContains (s pat : String) : Bool :=
  subOcc pat.data s.data

/-- Python's `str.lower` (the code only lowers ASCII heading text and
hrefs). -/
def pyLower (s : String) : String :=
  ⟨s.data.map Char.toLower⟩

/-- Python's `str.strip`: drop whitespace from both ends. -/
def pyStrip (s : String) : String :=
  ⟨((s.data.dropWhile Char.isWhitespace).reverse.dropWhile
      Char.isWhitespace).reverse⟩

/-- Python's `str.startswith`. -/
def pyStartsWith (s pre : String) : Bool :=
  pre.data.isPrefixOf s.data

/-- Python's `str.endswith`. -/
def pyEndsWith (s suf : String) : Bool :=
  suf.data.isSuffixOf s.data

/-- Python's `s[:-1]`. -/
def pyDropLast (s : String) : String :=
  ⟨s.data.dropLast⟩

/-- Resolution of one citation marker of a list item against the document's
references area (`get_ref_data`'s inner lookup): either no reference node
was found (`unresolved`, logged and skipped by the code), or it resolved to
the citation's outbound target link `real_href`. -/
inductive Cite
  | unresolved
  | resolved (real_href : String)
deriving DecidableEq, Repr

/-- One element of `soup.select("li a[title]:first-of-type, h2")`, in
document order: a heading or an eligible link.  A link carries the
resolutions of the citation markers collected from its enclosing list item
(the `child_linkset` of `get_ref_data`, in order). -/
inductive Item
  | h2 (text : String)
  | link (text href : String) (cites : List Cite)
deriving DecidableEq, Repr

/-- The parsed form of a fetched page: the selector results that the code
reads from a `BeautifulSoup` document. -/
structure Page where
  /-- `soup.select("a[title='Category:List of Cards']")` is non-empty. -/
  isCardList : Bool
  /-- `soup.select("#catlinks a[title='Category:Digimon']")` is non-empty. -/
  isDigimon : Bool
  /-- `soup.select_one("#firstHeading")`: `none` models the selector
  returning `None`, on which `.get_text()` raises `AttributeError`. -/
  firstHeading : Option String
  /-- `soup.select("li a[title]:first-of-type, h2")` in document order,
  with each link's citation markers already resolved against
  `soup.select(".references")`. -/
  items : List Item
deriving Repr

/-- Python exceptions that the embedded code can raise or catch:
`AttributeError` (the only class caught per-citation in `get_ref_data`)
and a connection-level error from `requests` (not caught anywhere below
the top level). -/
inductive PyErr
  | attrError
  | connError
deriving DecidableEq, Repr

/-- The external collaborators: the network, the HTML parser and
`urllib.parse.quote`, all abstracted as pure functions. -/
structure World where
  /-- `requests.get(BASE_URL + href).text`; may fail. -/
  net : String → Except PyErr String
  /-- `BeautifulSoup(text, 'lxml')` plus the selectors read by the code. -/
  parse : String → Page
  /-- `urllib.parse.quote`. -/
  quote : String → String

/-- A row of the `digimon` table.  Columns not set by
`DigiDB.register_digimon`'s `insert into digimon(id, name, url, html)`
take the schema's defaults; the schema file is not among the sources, so
the defaults are modelled from the spec: `scraped`, `prev_links` and
`next_links` start as SQL `NULL` ("absent (null) means not yet
extracted"). -/
structure DRow where
  id : Nat
  name : String
  url : String
  scraped : Option Int
  prev_links : Option (List String)
  next_links : Option (List String)
  html : Option String
deriving DecidableEq, Repr

/-- A row of the `refs` table (the reference cache). -/
structure RRow where
  url : String
  html : String
  is_card : Bool
deriving DecidableEq, Repr

/-- The SQLite store: the `scraped` table (visitation ledger), the
`digimon` table and the `refs` table, each as a list of rows in insertion
order. -/
structure DB where
  scrapedT : List String
  digimon : List DRow
  refs : List RRow
deriving DecidableEq, Repr

/-- The dictionary built by `digimon_by_site` / `get_evo_links`
(`ScrapeDigimon` in `digidb.py`).  The `scraped` field carries the raw
column value (`digimon_by_site` passes `data[3]` through unchanged). -/
structure ScrapeDigimon where
  id : Option Nat
  name : String
  url : String
  scraped : Option Int
  prev_links : List String
  next_links : List String
  html : Option String
deriving DecidableEq, Repr

/-- `DigiDB.scraped`: the SQL
`select 1 from scraped where site = ? and site not in
(select url from digimon where url = ? and scraped = 0)
union all select 1 from digimon where url = ? and scraped = 1`.
The first branch yields a row iff the site is in the ledger and no
`digimon` row with that url has `scraped = 0` (a `NULL` `scraped` column
fails the `scraped = 0` comparison); the second iff some `digimon` row
with that url has `scraped = 1`. -/
def DB.scraped (db : DB) (site : String) : Bool :=
  (db.scrapedT.contains site &&
    !(db.digimon.any fun r => r.url == site && r.scraped == some 0)) ||
  db.digimon.any fun r => r.url == site && r.scraped == some 1

/-- `DigiDB.mark_scraped`: `insert into scraped values (?)`. -/
def DB.mark_scraped (db : DB) (site : String) : DB :=
  { db with scrapedT := db.scrapedT ++ [site] }

/-- `DigiDB.digimon_by_site`: first `digimon` row with the given url;
`NULL` link columns are read back as `[]` (`json.loads(x) if x else []`),
and the `html` key is set to `None`. -/
def DB.digimon_by_site (db : DB) (site : String) : Option ScrapeDigimon :=
  (db.digimon.find? fun r => r.url == site).map fun r =>
    { id := some r.id, name := r.name, url := r.url, scraped := r.scraped,
      prev_links := r.prev_links.getD [], next_links := r.next_links.getD [],
      html := none }

/-- `DigiDB.get_digimon_html`:
`select html from digimon where url=? and html is not null`. -/
def DB.get_digimon_html (db : DB) (url : String) : Option String :=
  (db.digimon.find? fun r => r.url == url && r.html.isSome).bind (·.html)

/-- `DigiDB.create_ref`:
`insert into refs(id, url, html, is_card) values (NULL, ?, ?, ?) on
conflict do nothing`.  The `refs` table is keyed by `url` (per its doc
comment, a duplicate unique constraint is the conflict ignored), so the
insert is a no-op when a row with this url already exists. -/
def DB.create_ref (db : DB) (href html : String) (is_card : Bool) : DB :=
  if db.refs.any fun r => r.url == href then db
  else { db with refs := db.refs ++ [⟨href, html, is_card⟩] }

/-- `DigiDB.get_ref`:
`select 1, is_card from refs where url=? or url=?`, `fetchone`. -/
def DB.get_ref (db : DB) (href href2 : String) : Bool × Bool :=
  match db.refs.find? fun r => r.url == href || r.url == href2 with
  | some r => (true, r.is_card)
  | none => (false, false)

/-- `DigiDB.register_evolution_links`:
`update digimon set prev_links=?, next_links=? where id=?`
(the lists are stored JSON-encoded; `json.dumps` of a list is never
`NULL`, so the columns become non-`NULL`). -/
def DB.register_evolution_links (db : DB) (prev nxt : List String) (id : Nat) : DB :=
  { db with digimon := db.digimon.map fun r =>
      if r.id == id then { r with prev_links := some prev, next_links := some nxt }
      else r }

/-- `DigiDB.exists_digimon`: `select id from digimon where name = ?`,
`fetchone`. -/
def DB.exists_digimon (db : DB) (name : String) : Option Nat :=
  (db.digimon.find? fun r => r.name == name).map (·.id)

/-- The rowid SQLite assigns to `insert into digimon(id, ...) values
(NULL, ...)`: one more than the largest existing rowid. -/
def DB.freshId (db : DB) : Nat :=
  (db.digimon.map (·.id)).foldr max 0 + 1

/-- `DigiDB.register_digimon`: if a row with this name exists, return the
input dict with that row's id and touch nothing; otherwise insert
`(NULL, name, url, html)` and return the input dict with the fresh id. -/
def DB.register_digimon (db : DB) (d : ScrapeDigimon) : DB × ScrapeDigimon :=
  match db.exists_digimon d.name with
  | some i => (db, { d with id := some i })
  | none =>
    let nid := db.freshId
    ({ db with digimon := db.digimon ++
        [{ id := nid, name := d.name, url := d.url, scraped := none,
           prev_links := none, next_links := none, html := d.html }] },
     { d with id := some nid })

/-- SQLite `select distinct` over a scan, keeping the first occurrence of
each value. -/
def dedupKeepFirst (l : List String) : List String :=
  l.foldl (fun acc x => if acc.contains x then acc else acc ++ [x]) []

/-- `DigiDB.get_unscraped_links`: the CTE query.  `all_links` is the
distinct set of values of the JSON arrays in `prev_links` followed by
those in `next_links` (`json_each` over a `NULL` column yields no rows);
`all_scrapes` is the ledger plus the urls of `digimon` rows with
`scraped = 1`; the result is `all_links` without the members of
`all_scrapes`. -/
def DB.get_unscraped_links (db : DB) : List String :=
  let all_links := dedupKeepFirst
    ((db.digimon.map fun r => r.prev_links.getD []).flatten ++
     (db.digimon.map fun r => r.next_links.getD []).flatten)
  let all_scrapes := db.scrapedT ++
    ((db.digimon.filter fun r => r.scraped == some 1).map (·.url))
  all_links.filter fun site => !(all_scrapes.contains site)

/-! ## Process layer (`process.py`) -/

/-- `ASSUME_CARDS_FILLED` (module constant, line 20). -/
def ASSUME_CARDS_FILLED : Bool := false

/-- `IGNORE_CARD_ONLY_REFS` (module constant, line 21). -/
def IGNORE_CARD_ONLY_REFS : Bool := true

/-- Mutable process state: the database plus a log of the hrefs fetched
over the network (one entry per successful `requests.get`). -/
structure St where
  db : DB
  log : List String
deriving DecidableEq, Repr

/-- The fetch fallthrough of `delayed_request` (the code below the cache
check): wait out the pacing delay, fetch over the network and record the
fetch in the log. -/
def delayed_requestNet (w : World) (s : St) (href : String) :
    Except PyErr (String × St) :=
  match w.net href with
  | .ok text => .ok (text, { s with log := s.log ++ [href] })
  | .error e => .error e

/-- `delayed_request`: return the `digimon`-table cached html when the
cache yields a truthy value — Python's `if html:` treats both `None` and
the empty string as falsy — and otherwise hit the network. -/
def delayed_request (w : World) (s : St) (href : String) :
    Except PyErr (String × St) :=
  match s.db.get_digimon_html href with
  | some html =>
    if html.data.isEmpty then delayed_requestNet w s href
    else .ok (html, s)
  | none => delayed_requestNet w s href

/-- `create_ref`: fetch the reference target, classify it as card-only iff
it carries the `Category:List of Cards` marker, persist, and return
`(True, is_card)`. -/
def create_ref (w : World) (s : St) (href : String) :
    Except PyErr ((Bool × Bool) × St) :=
  match delayed_request w s href with
  | .error e => .error e
  | .ok (req, s1) =>
    let is_card := (w.parse req).isCardList
    .ok ((true, is_card), { s1 with db := s1.db.create_ref href req is_card })

/-- `is_cardgame_ref`: check the reference cache under `quote(href)` and
`href`; on a hit return the stored flag; on a miss (with
`ASSUME_CARDS_FILLED` off) fetch-and-classify via `create_ref`. -/
def is_cardgame_ref (w : World) (s : St) (href : String) :
    Except PyErr (Bool × St) :=
  let url := w.quote href
  match s.db.get_ref url href with
  | (true, b) => .ok (b, s)
  | (false, _) =>
    if ASSUME_CARDS_FILLED then .ok (false, s)
    else
      match create_ref w s href with
      | .error e => .error e
      | .ok ((_, is_card), s1) => .ok (is_card, s1)

/-- The citation loop of `get_ref_data`, folding
`(is_only_cardgame_refs, noncard_ref_count)` over the resolved citations:
unresolved markers, `battle-spirits` targets and non-local targets are
skipped; a classified non-card target clears the flag and bumps the
count; an `AttributeError` from classification skips just that citation;
any other error propagates. -/
def get_ref_dataLoop (w : World) :
    List Cite → Bool → Nat → St → Except PyErr ((Bool × Nat) × St)
  | [], is_only, k, s => .ok ((is_only, k), s)
  | c :: rest, is_only, k, s =>
    match c with
    | .unresolved => get_ref_dataLoop w rest is_only k s
    | .resolved real_href =>
      if strContains (pyLower real_href) "battle-spirits" then
        get_ref_dataLoop w rest is_only k s
      else if !(pyStartsWith real_href "/") then
        get_ref_dataLoop w rest is_only k s
      else
        match is_cardgame_ref w s real_href with
        | .ok (b, s1) =>
          if !b then get_ref_dataLoop w rest false (k + 1) s1
          else get_ref_dataLoop w rest is_only k s1
        | .error .attrError => get_ref_dataLoop w rest is_only k s
        | .error e => .error e

/-- `get_ref_data`: returns
`(is_only_cardgame_refs, noncard_ref_count, total_refs)` where
`total_refs` is the number of citation markers collected from the list
item (before any exclusion). -/
def get_ref_data (w : World) (s : St) (cites : List Cite) :
    Except PyErr ((Bool × Nat × Nat) × St) :=
  match get_ref_dataLoop w cites true 0 s with
  | .ok ((o, k), s1) => .ok ((o, k, cites.length), s1)
  | .error e => .error e

/-- The mode register of `extract_evolutions`: `'whatever'` (neutral),
`'prev'`, `'next'`. -/
inductive Mode
  | whatever
  | prev
  | next
deriving DecidableEq, Repr

/-- The item loop of `extract_evolutions`, accumulating
`prev_evos_ref` and `next_evos_ref` as `(href, noncard_ref_cnt)` pairs:
trigger headings switch the mode, a non-trigger heading in `next` mode
breaks out of the loop, links are skipped in neutral mode or when their
text contains `"card game"`, and a candidate whose references are
card-game-only is dropped when `IGNORE_CARD_ONLY_REFS` is set. -/
def extractLoop (w : World) :
    List Item → Mode → List (String × Nat) → List (String × Nat) → St →
    Except PyErr ((List (String × Nat) × List (String × Nat)) × St)
  | [], _, pr, nx, s => .ok ((pr, nx), s)
  | item :: rest, mode, pr, nx, s =>
    match item with
    | .h2 t =>
      let node_text := pyLower (pyStrip t)
      if strContains node_text "evolves from" then
        extractLoop w rest .prev pr nx s
      else if strContains node_text "evolves to" then
        extractLoop w rest .next pr nx s
      else if mode == .next then .ok ((pr, nx), s)
      else extractLoop w rest mode pr nx s
    | .link t href cites =>
      if mode == .whatever then extractLoop w rest mode pr nx s
      else
        let node_text := pyLower (pyStrip t)
        if strContains node_text "card game" then
          extractLoop w rest mode pr nx s
        else
          match get_ref_data w s cites with
          | .error e => .error e
          | .ok ((is_only, k, _t), s1) =>
            if is_only && IGNORE_CARD_ONLY_REFS then
              extractLoop w rest mode pr nx s1
            else if mode == .prev then
              extractLoop w rest mode (pr ++ [(href, k)]) nx s1
            else if mode == .next then
              extractLoop w rest mode pr (nx ++ [(href, k)]) s1
            else extractLoop w rest mode pr nx s1

/-- The final per-direction filter of `extract_evolutions`: keep a
candidate iff its non-card count reaches `MIN_REFERENCES` or the whole
direction has at most `LOW_EVO_COUNT` candidates. -/
def thresholdFilter (minRefs lowEvo : Nat) (l : List (String × Nat)) :
    List String :=
  (l.filter fun x => decide (minRefs ≤ x.2) || decide (l.length ≤ lowEvo)).map
    Prod.fst

/-- `extract_evolutions`: run the item loop from neutral mode with empty
accumulators, then apply the threshold filter to each direction. -/
def extract_evolutions (w : World) (minRefs lowEvo : Nat) (s : St)
    (items : List Item) :
    Except PyErr ((List String × List String) × St) :=
  match extractLoop w items .whatever [] [] s with
  | .error e => .error e
  | .ok ((pr, nx), s1) =>
    .ok ((thresholdFilter minRefs lowEvo pr, thresholdFilter minRefs lowEvo nx),
      s1)

/-- `get_evo_links`: non-local identifiers yield `None` at once; already
scraped sites are answered from the `digimon` table; otherwise fetch,
bail out with `None` when the page lacks the `Category:Digimon` marker,
read the title (`AttributeError` when `#firstHeading` is missing),
register the entity, extract and register its evolution links. -/
def get_evo_links (w : World) (minRefs lowEvo : Nat) (s : St) (site : String) :
    Except PyErr (Option ScrapeDigimon × St) :=
  if !(pyStartsWith site "/") then .ok (none, s)
  else if s.db.scraped site then .ok (s.db.digimon_by_site site, s)
  else
    match delayed_request w s site with
    | .error e => .error e
    | .ok (response, s1) =>
      let page := w.parse response
      if !page.isDigimon then .ok (none, s1)
      else
        match page.firstHeading with
        | none => .error .attrError
        | some h =>
          let raw_title := pyStrip h
          let title :=
            if pyEndsWith raw_title "/" then pyDropLast raw_title
            else raw_title
          let digimon : ScrapeDigimon :=
            { id := none, name := title, url := site, scraped := some 0,
              prev_links := [], next_links := [], html := some response }
          let rd := s1.db.register_digimon digimon
          let s2 : St := { s1 with db := rd.1 }
          match extract_evolutions w minRefs lowEvo s2 page.items with
          | .error e => .error e
          | .ok ((prev, nxt), s3) =>
            let digimon2 := { rd.2 with prev_links := prev, next_links := nxt }
            let s4 : St := { s3 with
              db := s3.db.register_evolution_links prev nxt (digimon2.id.getD 0) }
            .ok (some digimon2, s4)

/-- The `while sites:` loop of `recurse_search`.  `sites.pop()` removes
the last element; pushes append at the end; links found on a processed
page are pushed only when not yet scraped, and `mark_scraped` runs after
`get_evo_links` regardless of its outcome.  The loop is given fuel for
termination; exhausted fuel returns the state reached so far (a modelling
artifact, never hit in the concrete runs below). -/
def rsLoop (w : World) (minRefs lowEvo : Nat) :
    Nat → List String → St → Except PyErr St
  | 0, _, s => .ok s
  | fuel + 1, sites, s =>
    match sites.getLast? with
    | none => .ok s
    | some site =>
      let rest := sites.dropLast
      if s.db.scraped site then
        match s.db.digimon_by_site site with
        | none => rsLoop w minRefs lowEvo fuel rest s
        | some digimon =>
          let toAdd := (digimon.prev_links ++ digimon.next_links).filter
            fun l => !(s.db.scraped l)
          rsLoop w minRefs lowEvo fuel (rest ++ toAdd) s
      else
        match get_evo_links w minRefs lowEvo s site with
        | .error e => .error e
        | .ok (dg, s1) =>
          let s2 : St := { s1 with db := s1.db.mark_scraped site }
          match dg with
          | none => rsLoop w minRefs lowEvo fuel rest s2
          | some digimon =>
            let add1 := digimon.prev_links.filter fun l => !(s2.db.scraped l)
            let add2 := digimon.next_links.filter fun l => !(s2.db.scraped l)
            rsLoop w minRefs lowEvo fuel (rest ++ add1 ++ add2) s2

/-- `recurse_search(start_site)`: drain the frontier seeded with the
start site. -/
def recurse_search (w : World) (minRefs lowEvo fuel : Nat) (s : St)
    (start_site : String) : Except PyErr St :=
  rsLoop w minRefs lowEvo fuel [start_site] s

/-- `resume_scrape`: materialise the unscraped-link seeds from the
current store, then run `recurse_search` on each in order. -/
def resume_scrape (w : World) (minRefs lowEvo fuel : Nat) (s : St) :
    Except PyErr St :=
  (s.db.get_unscraped_links).foldlM
    (fun st row => recurse_search w minRefs lowEvo fuel st row) s

/-! ## Spec-side definitions and concrete instances used by the claims -/

/-- The visitation predicate as claim C2 words it: in the ledger, or some
entity row has `scraped = 1`. -/
def specVisitedC2 (db : DB) (site : String) : Bool :=
  db.scrapedT.contains site ||
  db.digimon.any fun r => r.url == site && r.scraped == some 1

/-- The acceptance predicate as claim C1 words it, for a candidate with
`t` total citations, `k` classified non-card citations (so "every counted
citation is card-only" is `k = 0`) and direction-total `n`:
not (`t > 0` and all-card-only and filter enabled), and
(`k ≥ MIN_REFERENCES` or `n ≤ LOW_EVO_COUNT`). -/
def specC1Accept (en : Bool) (mr le t k n : Nat) : Bool :=
  !(decide (0 < t) && decide (k = 0) && en) &&
  (decide (mr ≤ k) || decide (n ≤ le))

/-- The reference cache holds a row under the quoted or the raw form of
the identifier (the hit condition of `is_cardgame_ref`). -/
def cachedUnder (w : World) (db : DB) (href : String) : Bool :=
  db.refs.any fun r => r.url == w.quote href || r.url == href

/-- A run of classifier calls: fold `is_cardgame_ref` over a list of
targets, keeping the state unchanged on a raised error (errors abort the
enclosing candidate, not the store). -/
def runClassify (w : World) : List String → St → St
  | [], s => s
  | h :: rest, s =>
    match is_cardgame_ref w s h with
    | .ok (_, s1) => runClassify w rest s1
    | .error _ => runClassify w rest s

/-- The hrefs of the eligible link items of a document, in document
order. -/
def candHrefs : List Item → List String
  | [] => []
  | .h2 _ :: rest => candHrefs rest
  | .link _ href _ :: rest => href :: candHrefs rest

/-- The empty store and empty fetch log. -/
def st0 : St := { db := { scrapedT := [], digimon := [], refs := [] }, log := [] }

/-- A world whose network always fails; used where no fetch may happen. -/
def wNone : World :=
  { net := fun _ => .error .connError,
    parse := fun _ => { isCardList := false, isDigimon := false,
                        firstHeading := none, items := [] },
    quote := id }

/-- A world whose network always raises `AttributeError`; used to witness
per-citation error containment. -/
def wAttr : World :=
  { net := fun _ => .error .attrError,
    parse := fun _ => { isCardList := false, isDigimon := false,
                        firstHeading := none, items := [] },
    quote := id }

/-- The store state after claim C6's scenario visits `/B` (computed by
the embedding itself; used to split the resume run into its two seeds). -/
def stB6 : St :=
  { db := { scrapedT := ["/A", "/B"],
            digimon := [{ id := 1, name := "A", url := "/A", scraped := none,
                          prev_links := some [], next_links := some ["/B", "/C"],
                          html := some "A" },
                        { id := 2, name := "B", url := "/B", scraped := none,
                          prev_links := some [], next_links := some [],
                          html := some "/B" }],
            refs := [] },
    log := ["/B"] }

/-- The store state after claim C6's scenario visits `/B` then `/C`. -/
def stC6 : St :=
  { db := { scrapedT := ["/A", "/B", "/C"],
            digimon := [{ id := 1, name := "A", url := "/A", scraped := none,
                          prev_links := some [], next_links := some ["/B", "/C"],
                          html := some "A" },
                        { id := 2, name := "B", url := "/B", scraped := none,
                          prev_links := some [], next_links := some [],
                          html := some "/B" },
                        { id := 3, name := "C", url := "/C", scraped := none,
                          prev_links := some [], next_links := some [],
                          html := some "/C" }],
            refs := [] },
    log := ["/B", "/C"] }

/-- Claim C2's counterexample store: `/A` is in the ledger, and an entity
row for `/A` exists with `scraped = 0`. -/
def dbC2 : DB :=
  { scrapedT := ["/A"],
    digimon := [{ id := 1, name := "A", url := "/A", scraped := some 0,
                  prev_links := none, next_links := none, html := none }],
    refs := [] }

/-- Pages of claim C3's counterexample world: `/S` is a creature page with
two "Evolves to" candidates `/Y` and `/X`, each citing `/R`. -/
def pageOf3 : String → Page
  | "/S" => { isCardList := false, isDigimon := true, firstHeading := some "S",
              items := [ .h2 "Evolves to",
                         .link "Y" "/Y" [.resolved "/R"],
                         .link "X" "/X" [.resolved "/R"] ] }
  | _ => { isCardList := false, isDigimon := false, firstHeading := none,
           items := [] }

/-- Claim C3's counterexample world: fetching `/X` raises a connection
error; everything else fetches fine. -/
def w3 : World :=
  { net := fun href =>
      if href == "/X" then .error .connError else .ok href,
    parse := pageOf3, quote := id }

/-- Pages of claim C5's counterexample world: `/S` lists candidates `/U`
and `/N` (citing `/R`); `/U` is a creature page whose candidate cites
`/N`; `/N` is not a creature page (and classifies as a card list). -/
def pageOf5 : String → Page
  | "/S" => { isCardList := false, isDigimon := true, firstHeading := some "S",
              items := [ .h2 "Evolves to",
                         .link "U" "/U" [.resolved "/R"],
                         .link "N" "/N" [.resolved "/R"] ] }
  | "/U" => { isCardList := false, isDigimon := true, firstHeading := some "U",
              items := [ .h2 "Evolves to",
                         .link "V" "/V" [.resolved "/N"] ] }
  | "/N" => { isCardList := true, isDigimon := false, firstHeading := none,
              items := [] }
  | _ => { isCardList := false, isDigimon := false, firstHeading := none,
           items := [] }

/-- Claim C5's counterexample world. -/
def w5 : World :=
  { net := fun href => .ok href, parse := pageOf5, quote := id }

/-- Pages of claim C6's scenario world: `/B` and `/C` are creature pages
with no evolution sections. -/
def pageOf6 : String → Page
  | "/B" => { isCardList := false, isDigimon := true, firstHeading := some "B",
              items := [] }
  | "/C" => { isCardList := false, isDigimon := true, firstHeading := some "C",
              items := [] }
  | _ => { isCardList := false, isDigimon := false, firstHeading := none,
           items := [] }

/-- Claim C6's scenario world. -/
def w6 : World :=
  { net := fun href => .ok href, parse := pageOf6, quote := id }

/-- Claim C6's scenario store: site `/A` was processed (ledger entry,
entity row with recorded links `/B`, `/C`), neither link visited. -/
def db6 : DB :=
  { scrapedT := ["/A"],
    digimon := [{ id := 1, name := "A", url := "/A", scraped := none,
                  prev_links := some [], next_links := some ["/B", "/C"],
                  html := some "A" }],
    refs := [] }

/-- Claim C6's scenario start state. -/
def st6 : St := { db := db6, log := [] }

/-- A world for claim C7's duplicate-output example: every reference
target classifies as non-card. -/
def wDup : World :=
  { net := fun href => .ok href,
    parse := fun _ => { isCardList := false, isDigimon := false,
                        firstHeading := none, items := [] },
    quote := id }

/-- The state after a first classifier call for `/T` against an empty
store under `wDup` (fetch logged, row persisted). -/
def stW4b : St :=
  { db := { scrapedT := [], digimon := [],
            refs := [{ url := "/T", html := "/T", is_card := false }] },
    log := ["/T"] }

/-- Claim C5's witness store: an entity row whose cached content is the
empty string, which is falsy under Python's `if html:`. -/
def stW5 : St :=
  { db := { scrapedT := [],
            digimon := [{ id := 1, name := "E", url := "/E", scraped := none,
                          prev_links := none, next_links := none,
                          html := some "" }],
            refs := [] },
    log := [] }

/-- Claim C9's witness store: one entity named `A`. -/
def dbW9 : DB :=
  { scrapedT := [],
    digimon := [{ id := 1, name := "A", url := "/A", scraped := none,
                  prev_links := none, next_links := none, html := some "h" }],
    refs := [] }

/-- Claim C9's witness input with an already-registered name. -/
def dW9a : ScrapeDigimon :=
  { id := none, name := "A", url := "/A2", scraped := some 0,
    prev_links := [], next_links := [], html := some "h2" }

/-- Claim C9's witness input with a new name. -/
def dW9b : ScrapeDigimon :=
  { id := none, name := "B", url := "/B", scraped := some 0,
    prev_links := [], next_links := [], html := some "hb" }

/-- Claim C4's witness store: the cache already classifies `/T` as a
card reference. -/
def stW4 : St :=
  { db := { scrapedT := [], digimon := [],
            refs := [{ url := "/T", html := "t", is_card := true }] },
    log := [] }

/-! ## Helper lemmas -/

/-- In the citation loop of `get_ref_data`, the all-card-only flag and
the non-card count move together: the flag comes out true iff it went in
true and the count did not grow, and the count never shrinks. -/
theorem get_ref_dataLoop_flag (w : World) :
    ∀ (cites : List Cite) (o : Bool) (k : Nat) (s : St)
      (r : (Bool × Nat) × St),
      get_ref_dataLoop w cites o k s = .ok r →
      (r.1.1 = true ↔ (o = true ∧ r.1.2 = k)) ∧ k ≤ r.1.2 := by
  intro cites
  induction cites with
  | nil =>
    intro o k s r h
    simp only [get_ref_dataLoop, Except.ok.injEq] at h
    subst h
    simp
  | cons c rest ih =>
    intro o k s r h
    cases c with
    | unresolved =>
      exact ih o k s r h
    | resolved href =>
      simp only [get_ref_dataLoop] at h
      split at h
      · exact ih o k s r h
      · split at h
        · exact ih o k s r h
        · split at h
          · rename_i b s1 heq
            split at h
            · have hr := ih false (k + 1) s1 r h
              have hk2 : k + 1 ≤ r.1.2 := hr.2
              refine ⟨?_, by omega⟩
              constructor
              · intro ht
                have hcontra := hr.1.mp ht
                simp at hcontra
              · rintro ⟨-, hk⟩
                exact absurd hk (by omega)
            · exact ih o k s1 r h
          · exact ih o k s r h
          · exact absurd h (by simp)

/-- Membership in the final threshold filter of `extract_evolutions`:
an href is kept iff some surviving candidate entry carries it with a
non-card count reaching `MIN_REFERENCES`, or the direction has at most
`LOW_EVO_COUNT` surviving candidates. -/
theorem thresholdFilter_mem (mr le : Nat) (l : List (String × Nat))
    (href : String) :
    href ∈ thresholdFilter mr le l ↔
      ∃ k, (href, k) ∈ l ∧ (mr ≤ k ∨ l.length ≤ le) := by
  simp only [thresholdFilter, List.mem_map, List.mem_filter,
    Bool.or_eq_true, decide_eq_true_eq]
  constructor
  · rintro ⟨⟨h, k⟩, ⟨hm, hcond⟩, rfl⟩
    exact ⟨k, hm, hcond⟩
  · rintro ⟨k, hm, hcond⟩
    exact ⟨(href, k), ⟨hm, hcond⟩, rfl⟩

/-- In neutral mode, a document with no mode-switching heading leaves the
extractor untouched: accumulators and state come back unchanged. -/
theorem extractLoop_neutral (w : World) :
    ∀ (items : List Item) (pr nx : List (String × Nat)) (s : St),
      (∀ t, Item.h2 t ∈ items →
        strContains (pyLower (pyStrip t)) "evolves from" = false ∧
        strContains (pyLower (pyStrip t)) "evolves to" = false) →
      extractLoop w items .whatever pr nx s = .ok ((pr, nx), s) := by
  intro items
  induction items with
  | nil => intro pr nx s _; rfl
  | cons item rest ih =>
    intro pr nx s hno
    cases item with
    | h2 t =>
      have h := hno t (by simp)
      simp only [extractLoop, h.1, h.2, if_false, Bool.false_eq_true]
      simpa using ih pr nx s fun u hu => hno u (by simp [hu])
    | link t href cites =>
      simp only [extractLoop]
      simpa using ih pr nx s fun u hu => hno u (by simp [hu])

/-- The extractor only ever appends to its accumulators, and what it
appends lists hrefs of the document's link items in document order. -/
theorem extractLoop_sublist (w : World) :
    ∀ (items : List Item) (mode : Mode) (pr nx : List (String × Nat))
      (s : St) (res : (List (String × Nat) × List (String × Nat)) × St),
      extractLoop w items mode pr nx s = .ok res →
      ∃ dp dn, res.1.1 = pr ++ dp ∧ res.1.2 = nx ++ dn ∧
        List.Sublist (dp.map Prod.fst) (candHrefs items) ∧
        List.Sublist (dn.map Prod.fst) (candHrefs items) := by
  intro items
  induction items with
  | nil =>
    intro mode pr nx s res h
    simp only [extractLoop, Except.ok.injEq] at h
    subst h
    exact ⟨[], [], by simp, by simp, by simp, by simp⟩
  | cons item rest ih =>
    intro mode pr nx s res h
    cases item with
    | h2 t =>
      simp only [extractLoop] at h
      split at h
      · obtain ⟨dp, dn, h1, h2, h3, h4⟩ := ih .prev pr nx s res h
        exact ⟨dp, dn, h1, h2, h3, h4⟩
      · split at h
        · obtain ⟨dp, dn, h1, h2, h3, h4⟩ := ih .next pr nx s res h
          exact ⟨dp, dn, h1, h2, h3, h4⟩
        · split at h
          · simp only [Except.ok.injEq] at h
            subst h
            exact ⟨[], [], by simp, by simp, by simp, by simp⟩
          · exact ih mode pr nx s res h
    | link t href cites =>
      simp only [extractLoop] at h
      have hcand : candHrefs (.link t href cites :: rest) =
          href :: candHrefs rest := rfl
      rw [hcand]
      split at h
      · obtain ⟨dp, dn, h1, h2, h3, h4⟩ := ih mode pr nx s res h
        exact ⟨dp, dn, h1, h2, h3.cons href, h4.cons href⟩
      · split at h
        · obtain ⟨dp, dn, h1, h2, h3, h4⟩ := ih mode pr nx s res h
          exact ⟨dp, dn, h1, h2, h3.cons href, h4.cons href⟩
        · split at h
          · exact absurd h (by simp)
          · rename_i o k t2 s1 heq
            split at h
            · obtain ⟨dp, dn, h1, h2, h3, h4⟩ := ih mode pr nx s1 res h
              exact ⟨dp, dn, h1, h2, h3.cons href, h4.cons href⟩
            · split at h
              · obtain ⟨dp, dn, h1, h2, h3, h4⟩ :=
                  ih mode (pr ++ [(href, k)]) nx s1 res h
                refine ⟨(href, k) :: dp, dn, ?_, h2, ?_, h4.cons href⟩
                · rw [h1, List.append_assoc]
                  rfl
                · simpa using h3.cons₂ href
              · split at h
                · obtain ⟨dp, dn, h1, h2, h3, h4⟩ :=
                    ih mode pr (nx ++ [(href, k)]) s1 res h
                  refine ⟨dp, (href, k) :: dn, h1, ?_, h3.cons href, ?_⟩
                  · rw [h2, List.append_assoc]
                    rfl
                  · simpa using h4.cons₂ href
                · obtain ⟨dp, dn, h1, h2, h3, h4⟩ := ih mode pr nx s1 res h
                  exact ⟨dp, dn, h1, h2, h3.cons href, h4.cons href⟩

/-- The threshold filter keeps a subsequence of the candidate hrefs, in
order. -/
theorem thresholdFilter_sublist (mr le : Nat) (l : List (String × Nat)) :
    List.Sublist (thresholdFilter mr le l) (l.map Prod.fst) :=
  List.Sublist.map Prod.fst (List.filter_sublist l)

/-- Folding the keep-first dedup step collects exactly the members of
the accumulator and of the input. -/
theorem dedupKeepFirst_go_mem :
    ∀ (l acc : List String) (x : String),
      x ∈ l.foldl (fun a y => if a.contains y then a else a ++ [y]) acc ↔
        x ∈ acc ∨ x ∈ l := by
  intro l
  induction l with
  | nil => intro acc x; simp
  | cons y l ih =>
    intro acc x
    rw [List.foldl_cons]
    by_cases hc : acc.contains y
    · rw [if_pos hc, ih]
      have hy : y ∈ acc := List.elem_iff.mp hc
      constructor
      · rintro (h | h)
        · exact Or.inl h
        · exact Or.inr (List.mem_cons_of_mem y h)
      · rintro (h | h)
        · exact Or.inl h
        · rcases List.mem_cons.mp h with rfl | h
          · exact Or.inl hy
          · exact Or.inr h
    · rw [if_neg hc, ih]
      simp only [List.mem_append, List.mem_singleton, List.mem_cons]
      tauto

/-- The keep-first dedup step preserves freedom from duplicates. -/
theorem dedupKeepFirst_go_nodup :
    ∀ (l acc : List String), acc.Nodup →
      (l.foldl (fun a y => if a.contains y then a else a ++ [y]) acc).Nodup := by
  intro l
  induction l with
  | nil => intro acc h; simpa using h
  | cons y l ih =>
    intro acc h
    rw [List.foldl_cons]
    by_cases hc : acc.contains y
    · rw [if_pos hc]
      exact ih acc h
    · rw [if_neg hc]
      refine ih _ ?_
      rw [List.nodup_append]
      refine ⟨h, List.nodup_singleton y, ?_⟩
      intro a ha hmem
      rcases List.mem_singleton.mp hmem with rfl
      exact hc (List.elem_iff.mpr ha)

/-- `dedupKeepFirst` keeps exactly the members of its input. -/
theorem dedupKeepFirst_mem (l : List String) (x : String) :
    x ∈ dedupKeepFirst l ↔ x ∈ l := by
  unfold dedupKeepFirst
  rw [dedupKeepFirst_go_mem]
  simp

/-- `dedupKeepFirst` returns a duplicate-free list. -/
theorem dedupKeepFirst_nodup (l : List String) : (dedupKeepFirst l).Nodup :=
  dedupKeepFirst_go_nodup l [] List.nodup_nil

/-- The crawl loop on an empty frontier returns at once, for any fuel. -/
theorem rsLoop_nil (w : World) (mr le : Nat) :
    ∀ (f : Nat) (s : St), rsLoop w mr le f [] s = .ok s := by
  intro f s
  cases f <;> rfl

/-! ## Claim C1 -/

/-- C1, counterexample: a prev-direction candidate whose list item has no
citations at all (`t = 0`, hence `k = 0`), the only candidate in its
direction (`n = 1`), is accepted by the claim's predicate — the `t > 0`
guard shields it from the card-only drop, and `n = 1 ≤ LOW_EVO_COUNT`
waives the reference floor — yet `extract_evolutions` returns no
candidates: `get_ref_data` reports `is_only_cardgame_refs = True`
vacuously on an empty citation set, so the enabled card-only filter drops
the candidate before the threshold stage. -/
theorem c1_counterexample :
    specC1Accept IGNORE_CARD_ONLY_REFS 2 3 0 0 1 = true ∧
    get_ref_data wNone st0 [] = .ok ((true, 0, 0), st0) ∧
    extract_evolutions wNone 2 3 st0
      [ .h2 "Evolves from", .link "X" "/X" [] ] = .ok (([], []), st0) :=
  ⟨rfl, rfl, rfl⟩

/-- C1, amended: for a candidate whose citation loop returns
`(is_only_cardgame_refs, k, t)`: the flag is true iff `k = 0` — with no
`t > 0` guard, so a candidate with zero citations counts as card-only
vacuously — and `t` is the raw citation count; a candidate link processed
in `prev` (resp. `next`) mode is dropped when the flag is set (the filter
being enabled), otherwise recorded with its count `k`; and a recorded
candidate reaches the output iff `k ≥ MIN_REFERENCES` or the number `n`
of recorded candidates in its direction is `≤ LOW_EVO_COUNT`. -/
theorem c1_threshold_amended :
    (∀ (w : World) (cites : List Cite) (s : St) (o : Bool) (k t : Nat)
        (s1 : St),
        get_ref_data w s cites = .ok ((o, k, t), s1) →
        ((o = true ↔ k = 0) ∧ t = cites.length)) ∧
    (∀ (w : World) (rest : List Item) (txt href : String)
        (cites : List Cite) (pr nx : List (String × Nat)) (s : St)
        (o : Bool) (k t : Nat) (s1 : St),
        strContains (pyLower (pyStrip txt)) "card game" = false →
        get_ref_data w s cites = .ok ((o, k, t), s1) →
        extractLoop w (.link txt href cites :: rest) .prev pr nx s =
          if o = true then extractLoop w rest .prev pr nx s1
          else extractLoop w rest .prev (pr ++ [(href, k)]) nx s1) ∧
    (∀ (w : World) (rest : List Item) (txt href : String)
        (cites : List Cite) (pr nx : List (String × Nat)) (s : St)
        (o : Bool) (k t : Nat) (s1 : St),
        strContains (pyLower (pyStrip txt)) "card game" = false →
        get_ref_data w s cites = .ok ((o, k, t), s1) →
        extractLoop w (.link txt href cites :: rest) .next pr nx s =
          if o = true then extractLoop w rest .next pr nx s1
          else extractLoop w rest .next pr (nx ++ [(href, k)]) s1) ∧
    (∀ (mr le : Nat) (l : List (String × Nat)) (href : String),
        href ∈ thresholdFilter mr le l ↔
          ∃ k, (href, k) ∈ l ∧ (mr ≤ k ∨ l.length ≤ le)) := by
  refine ⟨?_, ?_, ?_, thresholdFilter_mem⟩
  · intro w cites s o k t s1 h
    simp only [get_ref_data] at h
    rcases hl : get_ref_dataLoop w cites true 0 s with e | ⟨⟨o2, k2⟩, s2⟩
    · rw [hl] at h
      exact absurd h (by simp)
    · rw [hl] at h
      simp only [Except.ok.injEq, Prod.mk.injEq] at h
      obtain ⟨⟨ho, hk, ht⟩, -⟩ := h
      have hf := get_ref_dataLoop_flag w cites true 0 s _ hl
      subst ho hk ht
      exact ⟨by simpa using hf.1, rfl⟩
  · intro w rest txt href cites pr nx s o k t s1 hcard hrd
    simp only [extractLoop, hcard, hrd, IGNORE_CARD_ONLY_REFS]
    cases o <;> simp
  · intro w rest txt href cites pr nx s o k t s1 hcard hrd
    simp only [extractLoop, hcard, hrd, IGNORE_CARD_ONLY_REFS]
    cases o <;> simp

/-- C1, witness: the amended theorem applied at concrete inputs — an
empty citation set yields the vacuous all-card flag with `k = 0`; a
non-card-flagged candidate is recorded in each direction; an href passes
the threshold filter of a singleton candidate list. -/
theorem c1_witness :
    ((true = true ↔ (0 : Nat) = 0) ∧ (0 : Nat) = ([] : List Cite).length) ∧
    (extractLoop wNone [.link "X" "/X" []] .prev [] [] st0 =
      if true = true then extractLoop wNone [] .prev [] [] st0
      else extractLoop wNone [] .prev ([] ++ [("/X", 0)]) [] st0) ∧
    (extractLoop wNone [.link "X" "/X" []] .next [] [] st0 =
      if true = true then extractLoop wNone [] .next [] [] st0
      else extractLoop wNone [] .next [] ([] ++ [("/X", 0)]) st0) ∧
    ("/X" ∈ thresholdFilter 2 3 [("/X", 0)] ↔
      ∃ k, ("/X", k) ∈ [("/X", 0)] ∧ (2 ≤ k ∨ [("/X", 0)].length ≤ 3)) :=
  ⟨c1_threshold_amended.1 wNone [] st0 true 0 0 st0 rfl,
   c1_threshold_amended.2.1 wNone [] "X" "/X" [] [] [] st0 true 0 0 st0
     rfl rfl,
   c1_threshold_amended.2.2.1 wNone [] "X" "/X" [] [] [] st0 true 0 0 st0
     rfl rfl,
   c1_threshold_amended.2.2.2 2 3 [("/X", 0)] "/X"⟩

/-! ## Claim C2 -/

/-- C2, counterexample: with `/A` in the Visitation Ledger and an entity
row for `/A` carrying `scraped = 0`, the claim's predicate ("presence in
the ledger alone suffices") holds, but `DigiDB.scraped` returns false:
the ledger branch of the query is defeated by its
`site not in (select url from digimon where url = ? and scraped = 0)`
condition. -/
theorem c2_counterexample :
    specVisitedC2 dbC2 "/A" = true ∧ DB.scraped dbC2 "/A" = false := by
  constructor <;> rfl

/-- C2, amended: `DigiDB.scraped(s)` returns true iff s is in the
Visitation Ledger and no entity row for s has `scraped = 0`, or some
entity row for s has `scraped = 1`.  Ledger presence alone does not
suffice when an entity row with `scraped = 0` exists. -/
theorem c2_scraped_amended (db : DB) (site : String) :
    db.scraped site = true ↔
      ((site ∈ db.scrapedT ∧
          ¬ ∃ r ∈ db.digimon, r.url = site ∧ r.scraped = some 0) ∨
        ∃ r ∈ db.digimon, r.url = site ∧ r.scraped = some 1) := by
  have hc : db.scrapedT.contains site = true ↔ site ∈ db.scrapedT :=
    List.elem_iff
  have h0 : (db.digimon.any fun r => r.url == site && r.scraped == some 0)
      = true ↔ ∃ r ∈ db.digimon, r.url = site ∧ r.scraped = some 0 := by
    simp [List.any_eq_true]
  have h1 : (db.digimon.any fun r => r.url == site && r.scraped == some 1)
      = true ↔ ∃ r ∈ db.digimon, r.url = site ∧ r.scraped = some 1 := by
    simp [List.any_eq_true]
  unfold DB.scraped
  rw [Bool.or_eq_true, Bool.and_eq_true, h1, hc, Bool.not_eq_true',
    ← Bool.not_eq_true, not_congr h0]

/-! ## Claim C3 -/

/-- C3, counterexample: with the network refusing `/X` only, a fresh
crawl from `/S` (whose page lists pending candidates `/Y` and `/X`)
aborts with the connection error instead of continuing with the
remaining frontier item `/Y` — `recurse_search` has no per-site error
handling, so a single site's fetch failure ends the whole crawl. -/
theorem c3_counterexample :
    w3.net "/X" = .error .connError ∧
    w3.net "/Y" = .ok "/Y" ∧
    recurse_search w3 2 3 10 st0 "/S" = .error .connError :=
  ⟨rfl, rfl, rfl⟩

/-- C3, amended: inside `get_ref_data` only an `AttributeError` from
classifying a citation is contained — that citation is skipped and the
loop resumes with the state it had; any other error from a citation
(here a connection error) propagates out of the citation loop; and a
failing `get_evo_links` on a popped site makes `recurse_search` return
that error, aborting the whole crawl rather than continuing with the
remaining frontier. -/
theorem c3_error_containment_amended :
    (∀ (w : World) (href : String) (rest : List Cite) (o : Bool) (k : Nat)
        (s : St),
        strContains (pyLower href) "battle-spirits" = false →
        pyStartsWith href "/" = true →
        is_cardgame_ref w s href = .error .attrError →
        get_ref_dataLoop w (.resolved href :: rest) o k s =
          get_ref_dataLoop w rest o k s) ∧
    (∀ (w : World) (href : String) (rest : List Cite) (o : Bool) (k : Nat)
        (s : St),
        strContains (pyLower href) "battle-spirits" = false →
        pyStartsWith href "/" = true →
        is_cardgame_ref w s href = .error .connError →
        get_ref_dataLoop w (.resolved href :: rest) o k s =
          .error .connError) ∧
    (∀ (w : World) (mr le f : Nat) (sites : List String) (site : String)
        (s : St) (e : PyErr),
        sites.getLast? = some site →
        s.db.scraped site = false →
        get_evo_links w mr le s site = .error e →
        rsLoop w mr le (f + 1) sites s = .error e) := by
  refine ⟨?_, ?_, ?_⟩
  · intro w href rest o k s hbs hsw herr
    simp only [get_ref_dataLoop, hbs, hsw, herr, Bool.not_true,
      Bool.false_eq_true, if_false]
  · intro w href rest o k s hbs hsw herr
    simp only [get_ref_dataLoop, hbs, hsw, herr, Bool.not_true,
      Bool.false_eq_true, if_false]
  · intro w mr le f sites site s e hlast hscr herr
    simp only [rsLoop, hlast, hscr, herr, Bool.false_eq_true, if_false]

/-- C3, witness: the amended theorem at concrete inputs — a citation
whose classification raises `AttributeError` is skipped with the state
kept; one that raises a connection error fails the loop; a site whose
fetch fails aborts the crawl loop with that error. -/
theorem c3_witness :
    get_ref_dataLoop wAttr [.resolved "/E"] true 0 st0 =
      get_ref_dataLoop wAttr [] true 0 st0 ∧
    get_ref_dataLoop wNone [.resolved "/E"] true 0 st0 =
      .error .connError ∧
    rsLoop wNone 2 3 1 ["/S"] st0 = .error .connError :=
  ⟨c3_error_containment_amended.1 wAttr "/E" [] true 0 st0 rfl rfl rfl,
   c3_error_containment_amended.2.1 wNone "/E" [] true 0 st0 rfl rfl rfl,
   c3_error_containment_amended.2.2 wNone 2 3 0 ["/S"] "/S" st0
     .connError rfl rfl rfl⟩

/-! ## Claim C4 -/

/-- A cache hit under either the quoted or the raw key answers the
classifier from the store with no state change and no fetch. -/
theorem is_cardgame_ref_hit (w : World) (s : St) (href : String) (r : RRow)
    (h : s.db.refs.find?
      (fun rr => rr.url == w.quote href || rr.url == href) = some r) :
    is_cardgame_ref w s href = .ok (r.is_card, s) := by
  simp only [is_cardgame_ref, DB.get_ref, h]

/-- When the lookup under both key forms misses, no cached row is keyed
by the raw href either, so the conflict-ignoring insert really inserts. -/
theorem anyHref_false_of_find_none (w : World) (href : String)
    (refs : List RRow)
    (hm : refs.find?
      (fun rr => rr.url == w.quote href || rr.url == href) = none) :
    refs.any (fun r => r.url == href) = false := by
  rw [Bool.eq_false_iff]
  intro hany
  obtain ⟨x, hx, hpx⟩ := List.any_eq_true.mp hany
  have := List.find?_eq_none.mp hm x hx
  simp only [Bool.or_eq_true] at this
  exact this (Or.inr hpx)

/-- A successful `delayed_request` never touches the store, and it either
answers from truthy cached content with the log kept, or logs exactly one
fetch of its own href. -/
theorem delayed_request_char (w : World) (s : St) (href text : String)
    (s1 : St) (h : delayed_request w s href = .ok (text, s1)) :
    s1.db = s.db ∧ (s1.log = s.log ∨ s1.log = s.log ++ [href]) := by
  have hnet : delayed_requestNet w s href = .ok (text, s1) →
      s1.db = s.db ∧ (s1.log = s.log ∨ s1.log = s.log ++ [href]) := by
    intro hn
    unfold delayed_requestNet at hn
    cases hw : w.net href with
    | ok t2 =>
      rw [hw] at hn
      simp only [Except.ok.injEq, Prod.mk.injEq] at hn
      rw [← hn.2]
      exact ⟨rfl, Or.inr rfl⟩
    | error e =>
      rw [hw] at hn
      exact absurd hn (by simp)
  unfold delayed_request at h
  split at h
  · split at h
    · exact hnet h
    · simp only [Except.ok.injEq, Prod.mk.injEq] at h
      rw [← h.2]
      exact ⟨rfl, Or.inl rfl⟩
  · exact hnet h

/-- On a cache miss the classifier fetches the target (logging the fetch
only when the page cache misses or holds falsy content), persists one row
keyed by the raw href, and returns the new classification. -/
theorem is_cardgame_ref_miss (w : World) (s : St) (href : String) (b : Bool)
    (s1 : St)
    (hm : s.db.refs.find?
      (fun rr => rr.url == w.quote href || rr.url == href) = none)
    (h : is_cardgame_ref w s href = .ok (b, s1)) :
    ∃ req, s1.db.refs = s.db.refs ++ [⟨href, req, b⟩] ∧
      s1.db.digimon = s.db.digimon ∧ s1.db.scrapedT = s.db.scrapedT ∧
      (s1.log = s.log ∨ s1.log = s.log ++ [href]) := by
  have hany := anyHref_false_of_find_none w href s.db.refs hm
  simp only [is_cardgame_ref, DB.get_ref, hm, ASSUME_CARDS_FILLED,
    Bool.false_eq_true, if_false, create_ref] at h
  cases hdr : delayed_request w s href with
  | error e =>
    rw [hdr] at h
    exact absurd h (by simp)
  | ok p =>
    obtain ⟨req, s2⟩ := p
    rw [hdr] at h
    simp only [Except.ok.injEq, Prod.mk.injEq] at h
    obtain ⟨hb, hs1⟩ := h
    obtain ⟨hdb, hlog⟩ := delayed_request_char w s href req s2 hdr
    refine ⟨req, ?_, ?_, ?_, ?_⟩
    · rw [← hs1]
      show (s2.db.create_ref href req ((w.parse req).isCardList)).refs = _
      rw [hdb, hb]
      unfold DB.create_ref
      rw [hany]
      simp
    · rw [← hs1]
      show (s2.db.create_ref href req ((w.parse req).isCardList)).digimon = _
      unfold DB.create_ref
      split <;> simp [hdb]
    · rw [← hs1]
      show (s2.db.create_ref href req ((w.parse req).isCardList)).scrapedT = _
      unfold DB.create_ref
      split <;> simp [hdb]
    · rw [← hs1]
      show s2.log = s.log ∨ s2.log = s.log ++ [href]
      exact hlog


/-- The reference cache only grows, so a cached key stays cached. -/
theorem cachedUnder_mono (w : World) (h : String) (db db2 : DB)
    (tail : List RRow) (he : db2.refs = db.refs ++ tail)
    (hc : cachedUnder w db h = true) : cachedUnder w db2 h = true := by
  unfold cachedUnder at hc ⊢
  rw [he, List.any_append, hc, Bool.true_or]

/-- A call for a cached target leaves the state untouched. -/
theorem cachedUnder_call_self (w : World) (s : St) (h2 : String)
    (hc : cachedUnder w s.db h2 = true) :
    ∃ b, is_cardgame_ref w s h2 = .ok (b, s) := by
  cases hf : s.db.refs.find?
      (fun rr => rr.url == w.quote h2 || rr.url == h2) with
  | some r => exact ⟨r.is_card, is_cardgame_ref_hit w s h2 r hf⟩
  | none =>
    obtain ⟨x, hx, hpx⟩ := List.any_eq_true.mp hc
    exact absurd hpx (by simpa using List.find?_eq_none.mp hf x hx)

/-- A successful classifier call extends the reference cache and logs at
most one fetch, of its own target; when it logs one the target is cached
afterwards. -/
theorem is_cardgame_ref_step (w : World) (s : St) (h2 : String) (b : Bool)
    (s1 : St) (hok : is_cardgame_ref w s h2 = .ok (b, s1)) :
    (∃ tail, s1.db.refs = s.db.refs ++ tail) ∧
    (s1.log = s.log ∨
      (s1.log = s.log ++ [h2] ∧ cachedUnder w s1.db h2 = true)) := by
  cases hf : s.db.refs.find?
      (fun rr => rr.url == w.quote h2 || rr.url == h2) with
  | some r =>
    have hh := is_cardgame_ref_hit w s h2 r hf
    rw [hok] at hh
    simp only [Except.ok.injEq, Prod.mk.injEq] at hh
    rw [← hh.2]
    exact ⟨⟨[], by simp⟩, Or.inl rfl⟩
  | none =>
    obtain ⟨req, hrefs, _, _, hlog⟩ := is_cardgame_ref_miss w s h2 b s1 hf hok
    refine ⟨⟨[⟨h2, req, b⟩], hrefs⟩, ?_⟩
    rcases hlog with hl | hl
    · exact Or.inl hl
    · refine Or.inr ⟨hl, ?_⟩
      unfold cachedUnder
      rw [hrefs, List.any_append]
      simp

/-- Fetch-count invariant of a classifier run: the number of logged
fetches of a target grows by at most one, and once grown the target is
cached, preventing further growth. -/
theorem runClassify_count (w : World) (t : String) :
    ∀ (hs : List String) (s : St) (n : Nat),
      (s.log.count t = n ∨
        (s.log.count t = n + 1 ∧ cachedUnder w s.db t = true)) →
      ((runClassify w hs s).log.count t = n ∨
        ((runClassify w hs s).log.count t = n + 1 ∧
          cachedUnder w (runClassify w hs s).db t = true)) := by
  intro hs
  induction hs with
  | nil => intro s n h; exact h
  | cons h2 rest ih =>
    intro s n hinv
    unfold runClassify
    cases hcall : is_cardgame_ref w s h2 with
    | error e => exact ih s n hinv
    | ok p =>
      obtain ⟨b, s1⟩ := p
      show (runClassify w rest s1).log.count t = n ∨ _
      apply ih s1 n
      obtain ⟨⟨tail, htail⟩, hlog⟩ := is_cardgame_ref_step w s h2 b s1 hcall
      rcases hlog with hsame | ⟨happ, hcu⟩
      · rcases hinv with h1 | ⟨h1, h2c⟩
        · exact Or.inl (by rw [hsame]; exact h1)
        · exact Or.inr ⟨by rw [hsame]; exact h1,
            cachedUnder_mono w t s.db s1.db tail htail h2c⟩
      · by_cases heq : h2 = t
        · subst heq
          rcases hinv with h1 | ⟨h1, h2c⟩
          · refine Or.inr ⟨?_, hcu⟩
            rw [happ, List.count_append, List.count_singleton, h1]
            simp
          · obtain ⟨b2, hcall2⟩ := cachedUnder_call_self w s h2 h2c
            rw [hcall] at hcall2
            simp only [Except.ok.injEq, Prod.mk.injEq] at hcall2
            have hlen := congrArg List.length happ
            rw [hcall2.2] at hlen
            simp at hlen
        · have hcnt : s1.log.count t = s.log.count t := by
            rw [happ, List.count_append, List.count_singleton]
            simp [heq]
          rcases hinv with h1 | ⟨h1, h2c⟩
          · exact Or.inl (by rw [hcnt]; exact h1)
          · exact Or.inr ⟨by rw [hcnt]; exact h1,
              cachedUnder_mono w t s.db s1.db tail htail h2c⟩

/-- Memoization: a second classifier call for the same target returns
the same value and changes nothing. -/
theorem is_cardgame_ref_stable (w : World) (t : String) (s : St) (b : Bool)
    (s1 : St) (h : is_cardgame_ref w s t = .ok (b, s1)) :
    is_cardgame_ref w s1 t = .ok (b, s1) := by
  cases hf : s.db.refs.find?
      (fun rr => rr.url == w.quote t || rr.url == t) with
  | some r =>
    have hh := is_cardgame_ref_hit w s t r hf
    rw [h] at hh
    simp only [Except.ok.injEq, Prod.mk.injEq] at hh
    rw [hh.2, hh.1]
    exact is_cardgame_ref_hit w s t r hf
  | none =>
    obtain ⟨req, hrefs, _, _, _⟩ := is_cardgame_ref_miss w s t b s1 hf h
    have hfind : s1.db.refs.find?
        (fun rr => rr.url == w.quote t || rr.url == t) =
          some ⟨t, req, b⟩ := by
      rw [hrefs, List.find?_append, hf]
      simp
    exact is_cardgame_ref_hit w s1 t ⟨t, req, b⟩ hfind


/-- C4: the classifier consults the reference cache under both the
percent-encoded form `quote(t)` and the raw form `t` of the identifier:
on a hit it returns the stored classification with no fetch and no state
change; across any run of classifier calls, at most one fetch of `t` is
added to the log no matter how many candidates cite `t`; and once a call
for `t` has returned, calling again returns that same value with the
state unchanged — the classification is never re-evaluated. -/
theorem c4_classifier_memoization :
    (∀ (w : World) (s : St) (href : String) (r : RRow),
        s.db.refs.find?
          (fun rr => rr.url == w.quote href || rr.url == href) = some r →
        is_cardgame_ref w s href = .ok (r.is_card, s)) ∧
    (∀ (w : World) (t : String) (hs : List String) (s : St),
        (runClassify w hs s).log.count t ≤ s.log.count t + 1) ∧
    (∀ (w : World) (t : String) (s : St) (b : Bool) (s1 : St),
        is_cardgame_ref w s t = .ok (b, s1) →
        is_cardgame_ref w s1 t = .ok (b, s1)) := by
  refine ⟨is_cardgame_ref_hit, ?_, is_cardgame_ref_stable⟩
  intro w t hs s
  rcases runClassify_count w t hs s (s.log.count t) (Or.inl rfl)
    with h | ⟨h, -⟩ <;> omega

/-- C4, witness: a stored classification for `/T` is returned from the
cache unchanged; a run calling the classifier twice on `/T` from an
empty store logs at most one fetch; and after a first call for `/T` the
second returns the identical result and state. -/
theorem c4_witness :
    is_cardgame_ref wNone stW4 "/T" =
      .ok ((⟨"/T", "t", true⟩ : RRow).is_card, stW4) ∧
    (runClassify wNone ["/T", "/T"] st0).log.count "/T" ≤
      st0.log.count "/T" + 1 ∧
    is_cardgame_ref wDup stW4b "/T" = .ok (false, stW4b) :=
  ⟨c4_classifier_memoization.1 wNone stW4 "/T" ⟨"/T", "t", true⟩ rfl,
   c4_classifier_memoization.2.1 wNone "/T" ["/T", "/T"] st0,
   c4_classifier_memoization.2.2 wDup "/T" st0 false stW4b rfl⟩

/-! ## Claim C5 -/

/-- C5, counterexample: in a fresh crawl from `/S`, site `/N` is fetched
(third fetch), found not to be a creature page and durably marked
visited; two iterations later `/U`'s candidate cites `/N`, and the
reference classifier — which consults only the `refs` cache, not the
ledger or the `digimon` page cache (which holds nothing for a
non-creature page) — fetches `/N` over the network a second time.  There
is no cache-bypass flag anywhere: the same site is fetched twice. -/
theorem c5_counterexample :
    (recurse_search w5 2 3 10 st0 "/S").map
        (fun s => (s.log, s.db.scrapedT)) =
      .ok (["/S", "/R", "/N", "/U", "/N"], ["/S", "/N", "/U"]) := rfl

/-- C5, amended: a popped site that the store reports as scraped is
processed without any fetch and without any state change (the iteration
only re-seeds the frontier from the stored links); `delayed_request`
returns the `digimon`-table cached content without network access
whenever that page cache holds non-empty content for the site — cached
content that is the empty string is falsy under Python's `if html:` and
falls through to the network path.  Re-fetches also remain possible
through the reference-classification path, which does not consult the
ledger. -/
theorem c5_no_revisit_amended :
    (∀ (w : World) (mr le f : Nat) (sites : List String) (site : String)
        (s : St),
        sites.getLast? = some site →
        s.db.scraped site = true →
        ∃ fr2, rsLoop w mr le (f + 1) sites s = rsLoop w mr le f fr2 s) ∧
    (∀ (w : World) (s : St) (href html : String),
        s.db.get_digimon_html href = some html →
        html.data.isEmpty = false →
        delayed_request w s href = .ok (html, s)) ∧
    (∀ (w : World) (s : St) (href : String),
        s.db.get_digimon_html href = some "" →
        delayed_request w s href = delayed_requestNet w s href) := by
  refine ⟨?_, ?_, ?_⟩
  · intro w mr le f sites site s hlast hscr
    rcases hd : s.db.digimon_by_site site with _ | d
    · exact ⟨sites.dropLast, by simp only [rsLoop, hlast, hscr, hd, if_true]⟩
    · refine ⟨sites.dropLast ++
        ((d.prev_links ++ d.next_links).filter fun l => !(s.db.scraped l)),
        ?_⟩
      simp only [rsLoop, hlast, hscr, hd, if_true]
  · intro w s href html hc hne
    simp only [delayed_request, hc, hne, Bool.false_eq_true, if_false]
  · intro w s href hc
    simp only [delayed_request, hc]
    rfl

/-- C5, witness: the amended theorem at concrete inputs — popping the
already-visited `/A` of the C6 scenario store re-seeds without fetching;
requesting `/A` is served from its non-empty cached content; and a store
caching the empty string for `/E` falls through to the network path. -/
theorem c5_witness :
    (∃ fr2, rsLoop wNone 2 3 1 ["/A"] st6 = rsLoop wNone 2 3 0 fr2 st6) ∧
    delayed_request wNone st6 "/A" = .ok ("A", st6) ∧
    delayed_request wNone stW5 "/E" = delayed_requestNet wNone stW5 "/E" :=
  ⟨c5_no_revisit_amended.1 wNone 2 3 0 ["/A"] "/A" st6 rfl rfl,
   c5_no_revisit_amended.2.1 wNone st6 "/A" "A" rfl rfl,
   c5_no_revisit_amended.2.2 wNone stW5 "/E" rfl⟩

/-! ## Claim C6 -/

/-- A site is in the unscraped-links seed iff it appears in some entity's
stored link lists and is visited by neither path. -/
theorem c6_seed_mem (db : DB) (site : String) :
    site ∈ db.get_unscraped_links ↔
      ((∃ r ∈ db.digimon,
          site ∈ r.prev_links.getD [] ∨ site ∈ r.next_links.getD []) ∧
        site ∉ db.scrapedT ∧
        ¬ ∃ r ∈ db.digimon, r.url = site ∧ r.scraped = some 1) := by
  unfold DB.get_unscraped_links
  simp only [List.mem_filter, dedupKeepFirst_mem, List.mem_append,
    List.mem_flatten, List.mem_map, Bool.not_eq_true',
    ← Bool.not_eq_true, List.elem_iff, List.mem_filter, beq_iff_eq]
  constructor
  · rintro ⟨hlinks, hns⟩
    refine ⟨?_, ?_, ?_⟩
    · rcases hlinks with ⟨l, ⟨r, hr, rfl⟩, hl⟩ | ⟨l, ⟨r, hr, rfl⟩, hl⟩
      · exact ⟨r, hr, Or.inl hl⟩
      · exact ⟨r, hr, Or.inr hl⟩
    · intro hmem
      exact hns (Or.inl hmem)
    · rintro ⟨r, hr, hu, hs⟩
      exact hns (Or.inr ⟨r, ⟨hr, hs⟩, hu⟩)
  · rintro ⟨⟨r, hr, hl⟩, hn1, hn2⟩
    refine ⟨?_, ?_⟩
    · rcases hl with hl | hl
      · exact Or.inl ⟨_, ⟨r, hr, rfl⟩, hl⟩
      · exact Or.inr ⟨_, ⟨r, hr, rfl⟩, hl⟩
    · rintro (h | ⟨r2, ⟨hr2, hs2⟩, hu2⟩)
      · exact hn1 h
      · exact hn2 ⟨r2, hr2, hu2, hs2⟩

/-- The C6 scenario resume run reaches the same final state for every
fuel bound of at least one step per seed: it terminates. -/
theorem c6_run (f : Nat) : resume_scrape w6 2 3 (f + 1) st6 = .ok stC6 := by
  have hB : rsLoop w6 2 3 (f + 1) ["/B"] st6 = rsLoop w6 2 3 f [] stB6 := rfl
  have hC : rsLoop w6 2 3 (f + 1) ["/C"] stB6 = rsLoop w6 2 3 f [] stC6 := rfl
  have hB2 : recurse_search w6 2 3 (f + 1) st6 "/B" = .ok stB6 := by
    unfold recurse_search
    rw [hB, rsLoop_nil]
  have hC2 : recurse_search w6 2 3 (f + 1) stB6 "/C" = .ok stC6 := by
    unfold recurse_search
    rw [hC, rsLoop_nil]
  unfold resume_scrape
  rw [show st6.db.get_unscraped_links = ["/B", "/C"] from rfl,
    List.foldlM_cons]
  rw [hB2]
  show List.foldlM (fun st row => recurse_search w6 2 3 (f + 1) st row)
    stB6 ["/C"] = Except.ok stC6
  rw [List.foldlM_cons, hC2]
  show List.foldlM (fun st row => recurse_search w6 2 3 (f + 1) st row)
    stC6 [] = Except.ok stC6
  rfl

/-- C6: the resume seed is exactly the duplicate-free set of site
identifiers appearing in some entity's stored `prev_links`/`next_links`
and visited by neither path (not in the ledger, no entity row with
`scraped = 1`); and in the concrete mid-crawl store where `/A` was
processed with recorded links `/B`, `/C`, a resume run seeds exactly
`/B` and `/C`, fetches exactly them (not `/A` again), marks them
visited, and reaches that same final state under any sufficient fuel —
it terminates once the transitive unvisited links are exhausted. -/
theorem c6_resume_seeds :
    (∀ (db : DB) (site : String),
        site ∈ db.get_unscraped_links ↔
          ((∃ r ∈ db.digimon,
              site ∈ r.prev_links.getD [] ∨ site ∈ r.next_links.getD []) ∧
            site ∉ db.scrapedT ∧
            ¬ ∃ r ∈ db.digimon, r.url = site ∧ r.scraped = some 1)) ∧
    (∀ db : DB, (db.get_unscraped_links).Nodup) ∧
    db6.get_unscraped_links = ["/B", "/C"] ∧
    (∀ f : Nat, resume_scrape w6 2 3 (f + 1) st6 = .ok stC6) ∧
    stC6.log = ["/B", "/C"] ∧ stC6.db.scrapedT = ["/A", "/B", "/C"] := by
  refine ⟨c6_seed_mem, ?_, rfl, c6_run, rfl, rfl⟩
  intro db
  exact List.Nodup.filter _ (dedupKeepFirst_nodup _)

/-! ## Claim C7 -/

/-- C7: `extract_evolutions` scans headings and eligible links in
document order with a mode register starting neutral: a document with no
trigger heading emits nothing and touches nothing (links in neutral mode
are ignored — also stated directly for a single link); a heading whose
normalized text contains "evolves from" switches the mode to `prev`, one
containing "evolves to" switches it to `next`; a non-trigger heading
met in `next` mode stops the scan on the spot, discarding the rest of
the document; each direction's output lists hrefs of the document's link
items in document order (a sublist of them); and a repeated link can be
emitted twice — no deduplication. -/
theorem c7_scan_modes :
    (∀ (w : World) (mr le : Nat) (s : St) (items : List Item),
        (∀ t, Item.h2 t ∈ items →
          strContains (pyLower (pyStrip t)) "evolves from" = false ∧
          strContains (pyLower (pyStrip t)) "evolves to" = false) →
        extract_evolutions w mr le s items = .ok (([], []), s)) ∧
    (∀ (w : World) (t : String) (rest : List Item) (mode : Mode)
        (pr nx : List (String × Nat)) (s : St),
        strContains (pyLower (pyStrip t)) "evolves from" = true →
        extractLoop w (.h2 t :: rest) mode pr nx s =
          extractLoop w rest .prev pr nx s) ∧
    (∀ (w : World) (t : String) (rest : List Item) (mode : Mode)
        (pr nx : List (String × Nat)) (s : St),
        strContains (pyLower (pyStrip t)) "evolves from" = false →
        strContains (pyLower (pyStrip t)) "evolves to" = true →
        extractLoop w (.h2 t :: rest) mode pr nx s =
          extractLoop w rest .next pr nx s) ∧
    (∀ (w : World) (t : String) (rest : List Item)
        (pr nx : List (String × Nat)) (s : St),
        strContains (pyLower (pyStrip t)) "evolves from" = false →
        strContains (pyLower (pyStrip t)) "evolves to" = false →
        extractLoop w (.h2 t :: rest) .next pr nx s = .ok ((pr, nx), s)) ∧
    (∀ (w : World) (t href : String) (cites : List Cite)
        (rest : List Item) (pr nx : List (String × Nat)) (s : St),
        extractLoop w (.link t href cites :: rest) .whatever pr nx s =
          extractLoop w rest .whatever pr nx s) ∧
    (∀ (w : World) (mr le : Nat) (s : St) (items : List Item)
        (res : (List String × List String) × St),
        extract_evolutions w mr le s items = .ok res →
        List.Sublist res.1.1 (candHrefs items) ∧
        List.Sublist res.1.2 (candHrefs items)) ∧
    (extract_evolutions wDup 2 3 st0
        [ .h2 "Evolves from", .link "x" "/X" [.resolved "/R"],
          .link "x" "/X" [.resolved "/R"] ] =
      .ok ((["/X", "/X"], []),
        { db := { scrapedT := [], digimon := [],
                  refs := [{ url := "/R", html := "/R", is_card := false }] },
          log := ["/R"] })) := by
  refine ⟨?_, ?_, ?_, ?_, ?_, ?_, rfl⟩
  · intro w mr le s items hno
    have hl := extractLoop_neutral w items [] [] s hno
    simp only [extract_evolutions, hl]
    rfl
  · intro w t rest mode pr nx s hfrom
    simp only [extractLoop, hfrom, if_true]
  · intro w t rest mode pr nx s hfrom hto
    simp only [extractLoop, hfrom, hto, Bool.false_eq_true, if_false, if_true]
  · intro w t rest pr nx s hfrom hto
    simp only [extractLoop, hfrom, hto, Bool.false_eq_true, if_false]
    simp
  · intro w t href cites rest pr nx s
    simp only [extractLoop]
    simp
  · intro w mr le s items res h
    simp only [extract_evolutions] at h
    rcases hl : extractLoop w items .whatever [] [] s with e | ⟨⟨pr, nx⟩, s1⟩
    · rw [hl] at h
      exact absurd h (by simp)
    · rw [hl] at h
      simp only [Except.ok.injEq] at h
      obtain ⟨dp, dn, h1, h2, h3, h4⟩ :=
        extractLoop_sublist w items .whatever [] [] s _ hl
      simp only [List.nil_append] at h1 h2
      subst h
      refine ⟨?_, ?_⟩
      · exact List.Sublist.trans (by simpa [h1] using thresholdFilter_sublist mr le pr) h3
      · exact List.Sublist.trans (by simpa [h2] using thresholdFilter_sublist mr le nx) h4

/-- C7, witness: the scan theorem applied at concrete documents — a
link-only document emits nothing from neutral mode; the trigger headings
switch the mode; a non-trigger heading in `next` mode stops the scan;
an empty document's output is a sublist of its (empty) candidates. -/
theorem c7_witness :
    extract_evolutions wNone 2 3 st0 [.link "a" "/a" []] =
      .ok (([], []), st0) ∧
    extractLoop wNone [Item.h2 "Evolves from"] .whatever [] [] st0 =
      extractLoop wNone [] .prev [] [] st0 ∧
    extractLoop wNone [Item.h2 "Evolves to"] .prev [] [] st0 =
      extractLoop wNone [] .next [] [] st0 ∧
    extractLoop wNone [Item.h2 "References"] .next [("/a", 1)] [] st0 =
      .ok (([("/a", 1)], []), st0) ∧
    (List.Sublist (([], []) : List String × List String).1 (candHrefs []) ∧
      List.Sublist (([], []) : List String × List String).2 (candHrefs [])) :=
  ⟨c7_scan_modes.1 wNone 2 3 st0 [.link "a" "/a" []]
      (by intro t ht; simp at ht),
   c7_scan_modes.2.1 wNone "Evolves from" [] .whatever [] [] st0 rfl,
   c7_scan_modes.2.2.1 wNone "Evolves to" [] .prev [] [] st0 rfl rfl,
   c7_scan_modes.2.2.2.1 wNone "References" [] [("/a", 1)] [] st0 rfl rfl,
   c7_scan_modes.2.2.2.2.2.1 wNone 2 3 st0 [] (([], []), st0) rfl⟩

/-! ## Claim C8 -/

/-- C8: `register_evolution_links(prev, nxt, id)` leaves the ledger and
the reference cache untouched, and rewrites the `digimon` table
pointwise: the row whose id matches gets its `prev_links`/`next_links`
columns overwritten with exactly the given lists (all its other fields
kept), and every other row is unchanged. -/
theorem c8_register_evolution_links_frame (db : DB) (prev nxt : List String)
    (id : Nat) :
    (db.register_evolution_links prev nxt id).scrapedT = db.scrapedT ∧
    (db.register_evolution_links prev nxt id).refs = db.refs ∧
    ∀ i : Nat, (db.register_evolution_links prev nxt id).digimon[i]? =
      (db.digimon[i]?).map fun r =>
        if r.id = id then
          { r with prev_links := some prev, next_links := some nxt }
        else r := by
  refine ⟨rfl, rfl, fun i => ?_⟩
  simp only [DB.register_evolution_links, List.getElem?_map]
  cases db.digimon[i]? with
  | none => rfl
  | some r => simp [beq_iff_eq]

/-! ## Claim C9 -/

/-- C9: when the name of the given entity already exists,
`register_digimon` returns the input carrying the existing row's id and
writes nothing at all (the store is returned unchanged, so the existing
row's id, url and cached html all survive: first seen wins); when the
name is new, it appends exactly one row holding the given name, url and
html, with every other column `NULL`, leaving all prior rows intact. -/
theorem c9_register_digimon_first_wins :
    (∀ (db : DB) (d : ScrapeDigimon) (i : Nat),
        db.exists_digimon d.name = some i →
        db.register_digimon d = (db, { d with id := some i })) ∧
    (∀ (db : DB) (d : ScrapeDigimon),
        db.exists_digimon d.name = none →
        db.register_digimon d =
          ({ db with digimon := db.digimon ++
              [{ id := db.freshId, name := d.name, url := d.url,
                 scraped := none, prev_links := none, next_links := none,
                 html := d.html }] },
           { d with id := some db.freshId })) := by
  constructor
  · intro db d i h
    simp [DB.register_digimon, h]
  · intro db d h
    simp [DB.register_digimon, h]

/-- C9, witness: registering a duplicate name `A` against a store already
holding entity `A` (id 1) returns id 1 and the unchanged store;
registering the new name `B` appends one fresh row. -/
theorem c9_witness :
    dbW9.register_digimon dW9a = (dbW9, { dW9a with id := some 1 }) ∧
    dbW9.register_digimon dW9b =
      ({ dbW9 with digimon := dbW9.digimon ++
          [{ id := dbW9.freshId, name := dW9b.name, url := dW9b.url,
             scraped := none, prev_links := none, next_links := none,
             html := dW9b.html }] },
       { dW9b with id := some dbW9.freshId }) :=
  ⟨c9_register_digimon_first_wins.1 dbW9 dW9a 1 rfl,
   c9_register_digimon_first_wins.2 dbW9 dW9b rfl⟩

/-! ## Claim C10 -/

/-- C10: a popped site identifier that does not start with `/` makes
`get_evo_links` return `None` immediately with the state untouched (no
fetch, no entity), yet the `recurse_search` iteration still runs
`mark_scraped`, so the identifier lands in the visitation ledger. -/
theorem c10_nonlocal_marked_unfetched (w : World) (mr le f : Nat) (s : St)
    (sites : List String) (site : String)
    (hlast : sites.getLast? = some site)
    (hloc : pyStartsWith site "/" = false)
    (hscr : s.db.scraped site = false) :
    get_evo_links w mr le s site = .ok (none, s) ∧
    rsLoop w mr le (f + 1) sites s =
      rsLoop w mr le f sites.dropLast { s with db := s.db.mark_scraped site } ∧
    site ∈ (s.db.mark_scraped site).scrapedT := by
  have hge : get_evo_links w mr le s site = .ok (none, s) := by
    simp [get_evo_links, hloc]
  refine ⟨hge, ?_, ?_⟩
  · simp [rsLoop, hlast, hscr, hge]
  · simp [DB.mark_scraped]

/-- C10, witness: the identifier `X` (no leading slash) popped from the
frontier of an empty store is marked visited without any fetch. -/
theorem c10_witness :
    get_evo_links wNone 2 3 st0 "X" = .ok (none, st0) ∧
    rsLoop wNone 2 3 1 ["X"] st0 =
      rsLoop wNone 2 3 0 (["X"].dropLast)
        { st0 with db := st0.db.mark_scraped "X" } ∧
    "X" ∈ (st0.db.mark_scraped "X").scrapedT :=
  c10_nonlocal_marked_unfetched wNone 2 3 0 st0 ["X"] "X" rfl rfl rfl

end Wikimon
